/-
  Verification of the panel-corners extension core (src/src/utils.js).

  The development shallowly embeds the source file:
  * the three theme-lookup helpers `lookup_for_length`, `lookup_for_double`,
    `lookup_for_color`,
  * the `debounce` utility,
  * the `PanelCorner` cached-getter engine (`invalidateCache`, the four
    private getters, `#update_allocation`, `vfunc_style_changed`),
  * the `PanelCorners` lifecycle controller (`update`, `update_corner`,
    `remove`) as an explicit single-threaded event system.

  External collaborators (GLib timers, the GSettings store, the theme node,
  `Clutter.color_from_string` restricted to the hex forms the source relies
  on) are modelled by explicit state or function parameters.
-/
import Mathlib

namespace PanelCornersSpec

/-! ## Colors and the external color parser -/

/-- An RGBA color as produced by `Clutter.color_from_string` /
`Cogl.color_from_string` (byte channels). -/
structure Color where
  r : Nat
  g : Nat
  b : Nat
  a : Nat
deriving DecidableEq, Repr, Inhabited

def hexDigit (c : Char) : Option Nat :=
  if '0' ≤ c ∧ c ≤ '9' then some (c.toNat - '0'.toNat)
  else if 'a' ≤ c ∧ c ≤ 'f' then some (c.toNat - 'a'.toNat + 10)
  else if 'A' ≤ c ∧ c ≤ 'F' then some (c.toNat - 'A'.toNat + 10)
  else none

def hexByte (c1 c2 : Char) : Option Nat := do
  let hi ← hexDigit c1
  let lo ← hexDigit c2
  pure (16 * hi + lo)

/-- Model of the external `Clutter.color_from_string` (resp.
`Cogl.color_from_string`), restricted to the `#rrggbb` and `#rrggbbaa` hex
forms; the source only depends on the parser accepting `#000000ff` and
rejecting non-color strings.  The JS call returns a pair
`[ok, color]`; we model it as an `Option Color`. -/
def color_from_string (s : String) : Option Color :=
  match s.data with
  | ['#', r1, r2, g1, g2, b1, b2] => do
      let r ← hexByte r1 r2
      let g ← hexByte g1 g2
      let b ← hexByte b1 b2
      pure ⟨r, g, b, 255⟩
  | ['#', r1, r2, g1, g2, b1, b2, a1, a2] => do
      let r ← hexByte r1 r2
      let g ← hexByte g1 g2
      let b ← hexByte b1 b2
      let a ← hexByte a1 a2
      pure ⟨r, g, b, a⟩
  | _ => none

/-! ## The settings store and the theme node -/

/-- The extension's settings store, as the lookup helpers use it:
`FORCE_EXTENSION_VALUES.get()`, and `get_property(name).get()` /
`get_property(name).set(v)` for the typed per-key values.  Length-valued
keys, double-valued keys and color-string-valued keys live in separate typed
maps (the JS store is dynamically typed; each key is only ever read at one
type).  `color_writes` logs every `set` performed on a color key. -/
structure Settings where
  FORCE_EXTENSION_VALUES : Bool
  lengths : String → Int
  doubles : String → ℚ
  colors : String → String
  color_writes : List (String × String)

/-- Models `settings.get_property(name).set(v)` on a color-string key. -/
def Settings.set_color (s : Settings) (name v : String) : Settings :=
  { s with colors := fun k => if k = name then v else s.colors k
           color_writes := s.color_writes ++ [(name, v)] }

/-- A theme node: the results of the native style lookups
`node.lookup_length(prop, false)`, `node.lookup_double(prop, false)`,
`node.lookup_color(prop, false)`, each a `[found, value]` pair. -/
structure ThemeNode where
  lookup_length : String → Bool × Int
  lookup_double : String → Bool × ℚ
  lookup_color : String → Bool × Color

/-- Reads `lookup[0]` of the JS two-element lookup array; on the empty array `[]`
the index is `undefined`, which is falsy. -/
def jsFound {α : Type} (lookup : Option (Bool × α)) : Bool :=
  match lookup with
  | none => false
  | some (b, _) => b

/-- Reads `lookup[1]` of the JS lookup array (only read on branches where
`lookup[0]` is truthy, hence the array is the two-element form). -/
def jsValue {α : Type} [Inhabited α] (lookup : Option (Bool × α)) : α :=
  match lookup with
  | none => default
  | some (_, v) => v

/-! ## The three lookup helpers (utils.js, lines 39-97) -/

/-- Embeds `lookup_for_length(node, prop, settings)`.  The display scale factor
(`St.ThemeContext.get_for_stage(global.stage).scale_factor`) is passed as an
explicit parameter. -/
def lookup_for_length (node : Option ThemeNode) (prop : String)
    (settings : Settings) (scale_factor : Int) : Int :=
  let use_extension_values := node.isSome && settings.FORCE_EXTENSION_VALUES
  let lookup : Option (Bool × Int) :=
    if use_extension_values then node.map (fun n => n.lookup_length prop)
    else none
  if use_extension_values || !(jsFound lookup) then
    let length := settings.lengths (prop.drop 1)
    length * scale_factor
  else
    jsValue lookup

/-- Embeds `lookup_for_double(node, prop, settings)`. -/
def lookup_for_double (node : Option ThemeNode) (prop : String)
    (settings : Settings) : ℚ :=
  let use_extension_values := node.isSome && settings.FORCE_EXTENSION_VALUES
  let lookup : Option (Bool × ℚ) :=
    if use_extension_values then node.map (fun n => n.lookup_double prop)
    else none
  if use_extension_values || !(jsFound lookup) then
    settings.doubles (prop.drop 1)
  else
    jsValue lookup

/-- Embeds `lookup_for_color(node, prop, settings)`; it may write the repaired
color back into the settings store, so it returns the updated store too. -/
def lookup_for_color (node : Option ThemeNode) (prop : String)
    (settings : Settings) : Color × Settings :=
  let use_extension_values := node.isSome && settings.FORCE_EXTENSION_VALUES
  let lookup : Option (Bool × Color) :=
    if use_extension_values then node.map (fun n => n.lookup_color prop)
    else none
  if use_extension_values || !(jsFound lookup) then
    let color_str := settings.colors (prop.drop 1)
    match color_from_string color_str with
    | some c => (c, settings)
    | none =>
        -- could not parse color, defaulting to black
        let settings := settings.set_color (prop.drop 1) "#000000ff"
        ((color_from_string "#000000ff").getD default, settings)
  else
    (jsValue lookup, settings)

/-! ## PanelCorner: the cached-getter engine (utils.js, lines 247-321) -/

/-- The four cached computed values of a `PanelCorner`
(`#cachedRadius`, `#cachedBorderWidth`, `#cachedBackgroundColor`,
`#cachedOpacity`); `none` models `null`. -/
structure PanelCornerCache where
  cachedRadius : Option Int
  cachedBorderWidth : Option Int
  cachedBackgroundColor : Option Color
  cachedOpacity : Option ℚ
deriving DecidableEq, Repr

/-- The cache state at construction (all fields initialised to `null`). -/
def freshCache : PanelCornerCache := ⟨none, none, none, none⟩

/-- Embeds `invalidateCache()`: sets all four cached fields to `null`. -/
def invalidateCache (_c : PanelCornerCache) : PanelCornerCache :=
  ⟨none, none, none, none⟩

/-- Embeds `#getRadius(node)`.  The returned `Bool` instruments whether the
underlying `Utils.lookup_for_length` call was performed. -/
def getRadius (node : Option ThemeNode) (scale_factor : Int)
    (settings : Settings) (c : PanelCornerCache) :
    Int × PanelCornerCache × Bool :=
  match c.cachedRadius with
  | some v => (v, c, false)
  | none =>
      let v := lookup_for_length node "-panel-corner-radius" settings
        scale_factor
      (v, { c with cachedRadius := some v }, true)

/-- Embeds `#getBorderWidth(node)`. -/
def getBorderWidth (node : Option ThemeNode) (scale_factor : Int)
    (settings : Settings) (c : PanelCornerCache) :
    Int × PanelCornerCache × Bool :=
  match c.cachedBorderWidth with
  | some v => (v, c, false)
  | none =>
      let v := lookup_for_length node "-panel-corner-border-width" settings
        scale_factor
      (v, { c with cachedBorderWidth := some v }, true)

/-- Embeds `#getBackgroundColor(node)`; threads the settings store because
`lookup_for_color` can repair an invalid stored color. -/
def getBackgroundColor (node : Option ThemeNode) (settings : Settings)
    (c : PanelCornerCache) :
    Color × PanelCornerCache × Settings × Bool :=
  match c.cachedBackgroundColor with
  | some v => (v, c, settings, false)
  | none =>
      let r := lookup_for_color node "-panel-corner-background-color" settings
      (r.1, { c with cachedBackgroundColor := some r.1 }, r.2, true)

/-- Embeds `#getOpacity(node)`. -/
def getOpacity (node : Option ThemeNode) (settings : Settings)
    (c : PanelCornerCache) : ℚ × PanelCornerCache × Bool :=
  match c.cachedOpacity with
  | some v => (v, c, false)
  | none =>
      let v := lookup_for_double node "-panel-corner-opacity" settings
      (v, { c with cachedOpacity := some v }, true)

/-! ### Getter-call sequences (for the cache-coherence properties) -/

/-- Which of the four cached fields a getter call addresses. -/
inductive Field
  | radius
  | borderWidth
  | backgroundColor
  | opacity
deriving DecidableEq, Repr

/-- A getter result (the fields have three different value types). -/
inductive Value
  | int (v : Int)
  | color (v : Color)
  | rat (v : ℚ)
deriving DecidableEq, Repr

/-- The mutable state a getter call can touch: the corner's cache and the
settings store. -/
structure CornerState where
  cache : PanelCornerCache
  settings : Settings

/-- Dispatch one getter call. -/
def callGetter (node : Option ThemeNode) (scale_factor : Int) (f : Field)
    (st : CornerState) : Value × CornerState × Bool :=
  match f with
  | .radius =>
      let r := getRadius node scale_factor st.settings st.cache
      (.int r.1, ⟨r.2.1, st.settings⟩, r.2.2)
  | .borderWidth =>
      let r := getBorderWidth node scale_factor st.settings st.cache
      (.int r.1, ⟨r.2.1, st.settings⟩, r.2.2)
  | .backgroundColor =>
      let r := getBackgroundColor node st.settings st.cache
      (.color r.1, ⟨r.2.1, r.2.2.1⟩, r.2.2.2)
  | .opacity =>
      let r := getOpacity node st.settings st.cache
      (.rat r.1, ⟨r.2.1, st.settings⟩, r.2.2)

/-- Run a sequence of getter calls, collecting each call's result and
whether it performed the underlying lookup. -/
def runCalls (node : Option ThemeNode) (scale_factor : Int) :
    List Field → CornerState → List (Value × Bool) × CornerState
  | [], st => ([], st)
  | f :: fs, st =>
      let r := callGetter node scale_factor f st
      let rest := runCalls node scale_factor fs r.2.1
      ((r.1, r.2.2) :: rest.1, rest.2)

/-- The outputs of the calls addressed to field `f`. -/
def resultsFor (f : Field) : List Field → List (Value × Bool) →
    List (Value × Bool)
  | [], _ => []
  | _, [] => []
  | g :: gs, o :: os =>
      if g = f then o :: resultsFor f gs os else resultsFor f gs os

/-- The cached value for a field, injected into `Value`. -/
def cacheF (f : Field) (c : PanelCornerCache) : Option Value :=
  match f with
  | .radius => c.cachedRadius.map .int
  | .borderWidth => c.cachedBorderWidth.map .int
  | .backgroundColor => c.cachedBackgroundColor.map .color
  | .opacity => c.cachedOpacity.map .rat

/-! ## Allocation geometry and the style-changed pass
(utils.js, lines 334-361 and 393-424) -/

/-- Models `St.Side` restricted to the two values the extension uses. -/
inductive Side
  | LEFT
  | RIGHT
deriving DecidableEq, Repr

/-- A `Clutter.ActorBox`. -/
structure ActorBox where
  x1 : Int
  x2 : Int
  y1 : Int
  y2 : Int
deriving DecidableEq, Repr

/-- Embeds `#update_allocation()`: computes the `childBox` handed to
`this.allocate` from the element's preferred width/height and the panel's
current width/height. -/
def update_allocation (side : Side) (cornerWidth cornerHeight : Int)
    (allocWidth allocHeight : Int) : ActorBox :=
  match side with
  | .LEFT => ⟨0, cornerWidth, allocHeight, allocHeight + cornerHeight⟩
  | .RIGHT => ⟨allocWidth - cornerWidth, allocWidth, allocHeight,
      allocHeight + cornerHeight⟩

/-- The size installed by `this.set_size(cornerRadius, borderWidth +
cornerRadius)` at the end of a style-changed pass; it becomes the element's
preferred width/height. -/
def preferredSize (cornerRadius borderWidth : Int) : Int × Int :=
  (cornerRadius, borderWidth + cornerRadius)

/-- Performs a starts-with check on character lists. -/
def charsStartWith : List Char → List Char → Bool
  | [], _ => true
  | _ :: _, [] => false
  | p :: ps, c :: cs => p == c && charsStartWith ps cs

/-- Substring containment on character lists. -/
def charsContain (pat : List Char) : List Char → Bool
  | [] => pat.isEmpty
  | c :: cs => charsStartWith pat (c :: cs) || charsContain pat cs

/-- JS `s.includes(pat)`. -/
def strIncludes (s pat : String) : Bool := charsContain pat.data s.data

/-- JS truthiness of the value returned by
`Main.panel.get_style_pseudo_class()` (`null` and the empty string are
falsy). -/
def jsTruthyStr (s : Option String) : Bool :=
  match s with
  | none => false
  | some str => !str.isEmpty

/-- The observable outcome of one `vfunc_style_changed()` pass. -/
structure StyleChangedOut where
  cache : PanelCornerCache
  settings : Settings
  childBox : ActorBox
  size : Int × Int
  translation_y : Int
  easeTarget : ℚ

/-- Embeds `vfunc_style_changed()`.  `pseudoClass` is
`Main.panel.get_style_pseudo_class()`; `prevW`/`prevH` are the element's
preferred width/height going into the pass (the allocation is recomputed
*before* `set_size`, so it still uses the previous preferred size). -/
def vfunc_style_changed (side : Side) (node : Option ThemeNode)
    (scale_factor : Int) (pseudoClass : Option String)
    (panelW panelH : Int) (prevW prevH : Int)
    (cache : PanelCornerCache) (settings : Settings) : StyleChangedOut :=
  let cache := invalidateCache cache
  let r1 := getRadius node scale_factor settings cache
  let cornerRadius := r1.1
  let cache := r1.2.1
  let r2 := getBorderWidth node scale_factor settings cache
  let borderWidth := r2.1
  let cache := r2.2.1
  let r3 := getOpacity node settings cache
  let opacity := r3.1
  let cache := r3.2.1
  -- if using extension values and in overview, set transparent
  let opacity : ℚ :=
    if settings.FORCE_EXTENSION_VALUES && jsTruthyStr pseudoClass
        && strIncludes (pseudoClass.getD "") "overview" then 0
    else opacity
  let childBox := update_allocation side prevW prevH panelW panelH
  let size := preferredSize cornerRadius borderWidth
  { cache := cache
    settings := settings
    childBox := childBox
    size := size
    translation_y := -borderWidth
    easeTarget := opacity * 255 }

/-! ## The debounce utility (utils.js, lines 14-37)

One debounced wrapper, as produced by
`debounce(() => { corner.invalidateCache(); corner.vfunc_style_changed(); },
SETTINGS_DEBOUNCE_MS)` in `update_corner`.  `timeoutId` is the closure
variable; `pending` is the set of GLib timeout sources currently scheduled
for this wrapper (as a list of ids); `nextId` models GLib's fresh source
ids; `events` records, in order, what the callback did each time a source
fired (the handler runs `invalidateCache()` then `vfunc_style_changed()`,
i.e. one cache invalidation followed by one style-changed recomputation;
the recomputation internally re-clears the just-cleared cache as its first
step). -/

/-- What one firing of the debounced settings handler does. -/
inductive DEv
  | invalidation
  | recomputation
deriving DecidableEq, Repr

structure Debounced where
  timeoutId : Option Nat
  pending : List Nat
  nextId : Nat
  events : List DEv
deriving DecidableEq, Repr

/-- The wrapper as returned by `debounce` (no source scheduled yet). -/
def Debounced.fresh : Debounced := ⟨none, [], 0, []⟩

/-- Invoking the debounced wrapper: remove the previously scheduled source
if any, then schedule a fresh one. -/
def Debounced.invoke (d : Debounced) : Debounced :=
  let d :=
    match d.timeoutId with
    | some tid => { d with pending := d.pending.erase tid }
    | none => d
  { d with timeoutId := some d.nextId
           pending := d.pending ++ [d.nextId]
           nextId := d.nextId + 1 }

/-- Embeds `debounced.cancel()`. -/
def Debounced.cancel (d : Debounced) : Debounced :=
  match d.timeoutId with
  | some tid => { d with pending := d.pending.erase tid, timeoutId := none }
  | none => d

/-- The GLib main loop dispatches source `sid` once its delay has elapsed
(only live sources fire; the handler clears `timeoutId`, runs the callback,
and returns `GLib.SOURCE_REMOVE`). -/
def Debounced.fire (d : Debounced) (sid : Nat) : Debounced :=
  if sid ∈ d.pending then
    { d with pending := d.pending.erase sid
             timeoutId := none
             events := d.events ++ [.invalidation, .recomputation] }
  else d

/-! ## The lifecycle controller as an event system
(utils.js, lines 113-234 and 253-271, 323-332)

Single-threaded event-loop semantics: each top-level occurrence (an
extension call to `update()`/`remove()`, a `changed::<key>` settings event,
a GLib timeout elapsing, a panel `notify::size`/`notify::position`) runs to
completion before the next.  Corners and wrappers are named by creation
index.  The log records the observable operations the claims speak
about. -/

/-- Observable operations. -/
inductive Ev
  /-- Records that `#update_allocation()` ran for corner `c`. -/
  | alloc (c : Nat)
  /-- the getters inside `vfunc_style_changed` recomputed corner `c`'s
  cached radius, border width and opacity. -/
  | refill (c : Nat)
  /-- Records that `invalidateCache()` ran for corner `c`. -/
  | invalidate (c : Nat)
  /-- a `vfunc_style_changed()` pass for corner `c` returned. -/
  | passEnd (c : Nat)
  /-- Records `GLib.source_remove` on the live timeout source `sid`. -/
  | cancelTimer (sid : Nat)
  /-- Records `Main.panel.remove_child(corner)` for corner `c`. -/
  | removeChild (c : Nat)
  /-- Records `corner.destroy()` for corner `c`. -/
  | destroyCorner (c : Nat)
deriving DecidableEq, Repr

/-- One debounced wrapper created in `update_corner`: its closure timer
variable and the corner it closes over. -/
structure Wrapper where
  timeoutId : Option Nat
  target : Nat
deriving DecidableEq, Repr

/-- The whole system state: the `PanelCorners` controller fields
(`field` is `#debouncedStyleUpdate`, `settingsConns` the wrappers
registered with `#connections` for the settings keys), the GLib source
pool (`sources` maps live source id to owning wrapper id), the panel's
`_leftCorner`/`_rightCorner` expando fields, and the per-corner
`notify::position`/`notify::size` subscriptions made in the `PanelCorner`
constructor. -/
structure Sys where
  nextC : Nat
  nextW : Nat
  nextS : Nat
  posConn : List Nat
  sizeConn : List Nat
  wrappers : List (Nat × Wrapper)
  sources : List (Nat × Nat)
  settingsConns : List Nat
  field : Option Nat
  panelLeft : Option Nat
  panelRight : Option Nat
  destroyed : List Nat
  log : List Ev
deriving DecidableEq, Repr

/-- The controller before any `update()` call (state ABSENT). -/
def sys0 : Sys :=
  { nextC := 0, nextW := 0, nextS := 0, posConn := [], sizeConn := []
    wrappers := [], sources := [], settingsConns := [], field := none
    panelLeft := none, panelRight := none, destroyed := [], log := [] }

/-- The events a `vfunc_style_changed()` call on corner `c` appends:
`invalidateCache()`, the getter refill, `#update_allocation()`, return. -/
def passEvents (c : Nat) : List Ev :=
  [.invalidate c, .refill c, .alloc c, .passEnd c]

/-- Embeds `corner.vfunc_style_changed()`. -/
def stylePass (c : Nat) (s : Sys) : Sys :=
  { s with log := s.log ++ passEvents c }

/-- Embeds `new PanelCorner(side, settings)`: connect `notify::position` and
`notify::size` on the panel, then run `#update_allocation()` inline. -/
def newCorner (s : Sys) : Nat × Sys :=
  let c := s.nextC
  (c, { s with nextC := c + 1
               posConn := s.posConn ++ [c]
               sizeConn := s.sizeConn ++ [c]
               log := s.log ++ [.alloc c] })

def lookupWrapper (s : Sys) (w : Nat) : Option Wrapper :=
  (s.wrappers.find? (fun p => p.1 = w)).map Prod.snd

def setWrapperTimeout (l : List (Nat × Wrapper)) (w : Nat)
    (t : Option Nat) : List (Nat × Wrapper) :=
  l.map (fun p => if p.1 = w then (p.1, { p.2 with timeoutId := t }) else p)

/-- The body of a debounced wrapper `w` being invoked by a
`changed::<key>` settings event: cancel its previously scheduled source if
any, then schedule a fresh one. -/
def invokeWrapper (w : Nat) (s : Sys) : Sys :=
  match lookupWrapper s w with
  | none => s
  | some wr =>
      let s :=
        match wr.timeoutId with
        | some tid =>
            { s with sources := s.sources.filter (fun p => p.1 ≠ tid)
                     log := s.log ++ [Ev.cancelTimer tid] }
        | none => s
      { s with sources := s.sources ++ [(s.nextS, w)]
               wrappers := setWrapperTimeout s.wrappers w (some s.nextS)
               nextS := s.nextS + 1 }

/-- A scheduled debounce source `sid` elapses: the GLib handler clears the
closure's `timeoutId`, runs
`corner.invalidateCache(); corner.vfunc_style_changed();`, and the source
is removed. -/
def fireSource (sid : Nat) (s : Sys) : Sys :=
  match s.sources.find? (fun p => p.1 = sid) with
  | none => s
  | some p =>
      let w := p.2
      let s := { s with sources := s.sources.filter (fun q => q.1 ≠ sid)
                        wrappers := setWrapperTimeout s.wrappers w none }
      match lookupWrapper s w with
      | none => s
      | some wr =>
          stylePass wr.target
            { s with log := s.log ++ [.invalidate wr.target] }

/-- Embeds `update_corner(corner)`: bind the style property, add the corner as a
panel child, run `vfunc_style_changed()`, build a fresh debounced wrapper,
store it in `#debouncedStyleUpdate` (overwriting the previous one without
cancelling it), and connect it to every settings key through
`#connections`. -/
def update_corner (c : Nat) (s : Sys) : Sys :=
  let s := stylePass c s
  let w := s.nextW
  { s with nextW := w + 1
           wrappers := s.wrappers ++ [(w, ⟨none, c⟩)]
           field := some w
           settingsConns := s.settingsConns ++ [w] }

/-- Embeds `corner.remove_connections()`. -/
def remove_connections (c : Nat) (s : Sys) : Sys :=
  { s with posConn := s.posConn.filter (fun x => x ≠ c)
           sizeConn := s.sizeConn.filter (fun x => x ≠ c) }

/-- Embeds `remove_corner(corner)`: `remove_connections`, `remove_child`,
`destroy`. -/
def remove_corner (c : Nat) (s : Sys) : Sys :=
  let s := remove_connections c s
  { s with destroyed := s.destroyed ++ [c]
           log := s.log ++ [.removeChild c, .destroyCorner c] }

/-- Embeds the first statement of `remove()`: cancel any pending debounced update and
clear `#debouncedStyleUpdate`. -/
def cancelDebounced (s : Sys) : Sys :=
  match s.field with
  | some w =>
      let s :=
        match (lookupWrapper s w).bind Wrapper.timeoutId with
        | some tid =>
            { s with sources := s.sources.filter (fun p => p.1 ≠ tid)
                     wrappers := setWrapperTimeout s.wrappers w none
                     log := s.log ++ [Ev.cancelTimer tid] }
        | none => s
      { s with field := none }
  | none => s

/-- Embeds the second statement of `remove()`: `#connections.disconnect_all()`. -/
def disconnectAll (s : Sys) : Sys := { s with settingsConns := [] }

/-- Embeds the third statement of `remove()`: disable the left corner if present. -/
def removeLeft (s : Sys) : Sys :=
  match s.panelLeft with
  | some c => remove_corner c { s with panelLeft := none }
  | none => s

/-- Embeds the fourth statement of `remove()`: disable the right corner if present. -/
def removeRight (s : Sys) : Sys :=
  match s.panelRight with
  | some c => remove_corner c { s with panelRight := none }
  | none => s

/-- Embeds `PanelCorners.remove()`. -/
def removeCtl (s : Sys) : Sys :=
  removeRight (removeLeft (disconnectAll (cancelDebounced s)))

/-- Embeds `PanelCorners.update()`. -/
def updateCtl (s : Sys) : Sys :=
  let s := removeCtl s
  let r1 := newCorner s
  let s := { r1.2 with panelLeft := some r1.1 }
  let r2 := newCorner s
  let s := { r2.2 with panelRight := some r2.1 }
  let s := update_corner r1.1 s
  update_corner r2.1 s

/-- One `changed::<key>` settings event: every wrapper registered through
`#connections` is invoked once. -/
def settingsChanged (s : Sys) : Sys :=
  s.settingsConns.foldl (fun t w => invokeWrapper w t) s

/-- A panel `notify::size`: every corner with a live size subscription runs
`#update_allocation()`. -/
def panelSizeChanged (s : Sys) : Sys :=
  { s with log := s.log ++ s.sizeConn.map Ev.alloc }

/-- A panel `notify::position`. -/
def panelPosChanged (s : Sys) : Sys :=
  { s with log := s.log ++ s.posConn.map Ev.alloc }

/-- Top-level event-loop occurrences. -/
inductive Act
  | update
  | remove
  | settings
  | fire (sid : Nat)
  | panelResize
  | panelMove
deriving DecidableEq, Repr

def step : Act → Sys → Sys
  | .update, s => updateCtl s
  | .remove, s => removeCtl s
  | .settings, s => settingsChanged s
  | .fire sid, s => fireSource sid s
  | .panelResize, s => panelSizeChanged s
  | .panelMove, s => panelPosChanged s

def run (acts : List Act) (s : Sys) : Sys :=
  acts.foldl (fun t a => step a t) s

/-! ## Trace predicates for the allocation-ordering claims -/

/-- Literal reading of the ordering claim: scanning the log left to right,
every allocation for a corner must be preceded by a *completed*
style-changed pass for that corner. -/
def allocAfterPass (seen : List Ev) : List Ev → Bool
  | [] => true
  | e :: rest =>
      (match e with
       | Ev.alloc c => decide (Ev.passEnd c ∈ seen)
       | _ => true) && allocAfterPass (seen ++ [e]) rest

/-- Amended per-event guard: an allocation is admissible if it is the
corner's first ever (the constructor's inline call) or the style-changed
getter refill for that corner already happened. -/
def allocGuarded (seen : List Ev) (e : Ev) : Bool :=
  match e with
  | Ev.alloc c =>
      !(decide (Ev.alloc c ∈ seen)) || decide (Ev.refill c ∈ seen)
  | _ => true

/-- Scan of a log under `allocGuarded`. -/
def allocsOkFrom (seen : List Ev) : List Ev → Bool
  | [] => true
  | e :: rest => allocGuarded seen e && allocsOkFrom (seen ++ [e]) rest

/-- Inductive invariant of the event system used for the
allocation-ordering claim: the log satisfies the amended ordering, every
corner with a live panel-signal subscription has been refilled by a
style-changed pass, corner ids in the log and the subscriptions are below
the allocation counter, and wrapper targets are existing corners. -/
def Inv (s : Sys) : Prop :=
  allocsOkFrom [] s.log = true ∧
  (∀ c ∈ s.sizeConn, Ev.refill c ∈ s.log) ∧
  (∀ c ∈ s.posConn, Ev.refill c ∈ s.log) ∧
  (∀ c, s.nextC ≤ c → Ev.alloc c ∉ s.log) ∧
  (∀ p ∈ s.wrappers, (Prod.snd p).target < s.nextC) ∧
  (∀ c ∈ s.sizeConn, c < s.nextC) ∧
  (∀ c ∈ s.posConn, c < s.nextC)

/-! ## Concrete instances used by the claims -/

/-- A theme node on which every native lookup succeeds, with values
distinct from the settings values below. -/
def themeNodeA : ThemeNode :=
  { lookup_length := fun _ => (true, 42)
    lookup_double := fun _ => (true, 3/4)
    lookup_color := fun _ => (true, ⟨9, 9, 9, 255⟩) }

/-- A settings store with forcing disabled. -/
def settingsNoForce : Settings :=
  { FORCE_EXTENSION_VALUES := false
    lengths := fun _ => 7
    doubles := fun _ => 1/2
    colors := fun _ => "#112233ff"
    color_writes := [] }

/-- A settings store holding an unparsable color string. -/
def settingsBadColor : Settings :=
  { FORCE_EXTENSION_VALUES := false
    lengths := fun _ => 0
    doubles := fun _ => 0
    colors := fun _ => "notacolor"
    color_writes := [] }

/-- A settings store with distinct length values for radius and border
width. -/
def demoSettings : Settings :=
  { FORCE_EXTENSION_VALUES := false
    lengths := fun k => if k = "panel-corner-radius" then 5 else 2
    doubles := fun _ => 0
    colors := fun _ => "#112233ff"
    color_writes := [] }

/-! ## General lemmas about the lookup helpers

In the source, the native lookup is only performed when
`use_extension_values` is true, while its result is only consumed when
`use_extension_values` is false; consequently the settings fallback is
taken on every path. -/

theorem lookup_for_length_eq (node : Option ThemeNode) (prop : String)
    (settings : Settings) (scale_factor : Int) :
    lookup_for_length node prop settings scale_factor =
      settings.lengths (prop.drop 1) * scale_factor := by
  unfold lookup_for_length
  cases node <;> cases hF : settings.FORCE_EXTENSION_VALUES <;>
    simp [jsFound, hF]

theorem lookup_for_double_eq (node : Option ThemeNode) (prop : String)
    (settings : Settings) :
    lookup_for_double node prop settings =
      settings.doubles (prop.drop 1) := by
  unfold lookup_for_double
  cases node <;> cases hF : settings.FORCE_EXTENSION_VALUES <;>
    simp [jsFound, hF]

theorem lookup_for_color_eq (node : Option ThemeNode) (prop : String)
    (s : Settings) :
    lookup_for_color node prop s =
      match color_from_string (s.colors (prop.drop 1)) with
      | some c => (c, s)
      | none => (⟨0, 0, 0, 255⟩, s.set_color (prop.drop 1) "#000000ff") := by
  unfold lookup_for_color
  cases node <;> cases hF : s.FORCE_EXTENSION_VALUES <;>
    simp [jsFound, hF] <;>
    cases hp : color_from_string (s.colors (prop.drop 1)) <;>
    simp [hp] <;> rfl

/-- Claim C1: The claim states the lookup functions return the theme-native
result exactly when forcing is disabled and the native lookup succeeded.
On the code that configuration still yields the user-settings value: the
native lookup is only *performed* when `use_extension_values` is true, yet
its result is only *consumed* when `use_extension_values` is false, so the
theme-native branch is unreachable.  With forcing disabled, a theme node
present, and every native lookup succeeding (length 42, double 3/4, color
(9,9,9,255)), all three functions return the settings values (7 × scale,
1/2, the parse of "#112233ff") instead of the theme-native ones. -/
theorem lookups_never_return_theme_native :
    lookup_for_length (some themeNodeA) "-panel-corner-radius"
      settingsNoForce 1 = 7 ∧
    (themeNodeA.lookup_length "-panel-corner-radius").1 = true ∧
    (themeNodeA.lookup_length "-panel-corner-radius").2 = 42 ∧
    (7 : Int) ≠ 42 ∧
    lookup_for_double (some themeNodeA) "-panel-corner-opacity"
      settingsNoForce = 1/2 ∧
    (lookup_for_color (some themeNodeA) "-panel-corner-background-color"
      settingsNoForce).1 = ⟨17, 34, 51, 255⟩ := by
  refine ⟨by decide, rfl, rfl, by decide, ?_, by decide⟩
  rw [lookup_for_double_eq]
  rfl

/-- Claim C3, counterexample: With radius 10 and border width 2 the
style-changed pass sets the preferred size to width 10, height 12, so on a
panel of height 40 the allocation's vertical extent is [40, 52], not the
claimed [40, 50]. -/
theorem allocation_y_extent_counterexample :
    (update_allocation Side.LEFT (preferredSize 10 2).1
      (preferredSize 10 2).2 1000 40).y2 = 52 ∧ (52 : Int) ≠ 50 := by
  decide

/-- Claim C3, amended: For radius 10, border width 2, panel 1000 × 40, with
the preferred size set by the style-changed pass to (radius,
borderWidth + radius) = (10, 12): the LEFT allocation is x ∈ [0, 10],
y ∈ [40, 52] and the RIGHT allocation is x ∈ [990, 1000], y ∈ [40, 52]. -/
theorem allocation_geometry :
    update_allocation Side.LEFT (preferredSize 10 2).1
      (preferredSize 10 2).2 1000 40 = ⟨0, 10, 40, 52⟩ ∧
    update_allocation Side.RIGHT (preferredSize 10 2).1
      (preferredSize 10 2).2 1000 40 = ⟨990, 1000, 40, 52⟩ := by
  decide

/-- Claim C7: If the stored color string fails to parse, `lookup_for_color`
writes `"#000000ff"` back into that same setting and returns opaque black;
a second read then parses the repaired value, returns opaque black again,
and performs no further write (the settings store, including its write
log, is unchanged). -/
theorem color_self_repair (node node2 : Option ThemeNode) (s : Settings)
    (h : color_from_string (s.colors "panel-corner-background-color")
      = none) :
    (lookup_for_color node "-panel-corner-background-color" s).1
      = ⟨0, 0, 0, 255⟩ ∧
    (lookup_for_color node "-panel-corner-background-color" s).2.colors
      "panel-corner-background-color" = "#000000ff" ∧
    (lookup_for_color node "-panel-corner-background-color" s).2.color_writes
      = s.color_writes ++ [("panel-corner-background-color", "#000000ff")] ∧
    (lookup_for_color node2 "-panel-corner-background-color"
      (lookup_for_color node "-panel-corner-background-color" s).2).1
      = ⟨0, 0, 0, 255⟩ ∧
    (lookup_for_color node2 "-panel-corner-background-color"
      (lookup_for_color node "-panel-corner-background-color" s).2).2
      = (lookup_for_color node "-panel-corner-background-color" s).2 := by
  have hdrop : ("-panel-corner-background-color".drop 1)
      = "panel-corner-background-color" := rfl
  have hblack : color_from_string "#000000ff"
      = some ⟨0, 0, 0, 255⟩ := by decide
  rw [lookup_for_color_eq, hdrop, h]
  rw [lookup_for_color_eq, hdrop]
  simp [Settings.set_color, hblack]

/-- Claim C8: In `vfunc_style_changed`, whenever `FORCE_EXTENSION_VALUES`
is enabled and the panel's style pseudo-class string contains
`"overview"`, the opacity animation target is 0; in every other case it is
the theme/settings-derived opacity (here the fresh
`lookup_for_double` value, since the pass just invalidated the cache)
times 255. -/
theorem overview_opacity_override (side : Side) (node : Option ThemeNode)
    (scale_factor : Int) (pseudoClass : Option String)
    (panelW panelH prevW prevH : Int) (cache : PanelCornerCache)
    (settings : Settings) :
    (vfunc_style_changed side node scale_factor pseudoClass panelW panelH
      prevW prevH cache settings).easeTarget =
      if settings.FORCE_EXTENSION_VALUES && jsTruthyStr pseudoClass
          && strIncludes (pseudoClass.getD "") "overview" then 0
      else lookup_for_double node "-panel-corner-opacity" settings * 255 := by
  unfold vfunc_style_changed invalidateCache getRadius getBorderWidth
    getOpacity
  simp only []
  split_ifs <;> norm_num

/-- Witness for `color_self_repair` at the stored string `"notacolor"`,
read with no theme node. -/
theorem color_self_repair_witness :
    color_from_string (settingsBadColor.colors "panel-corner-background-color")
      = none ∧
    ((lookup_for_color none "-panel-corner-background-color"
        settingsBadColor).1 = ⟨0, 0, 0, 255⟩ ∧
      (lookup_for_color none "-panel-corner-background-color"
        settingsBadColor).2.colors "panel-corner-background-color"
        = "#000000ff" ∧
      (lookup_for_color none "-panel-corner-background-color"
        settingsBadColor).2.color_writes
        = settingsBadColor.color_writes ++
          [("panel-corner-background-color", "#000000ff")] ∧
      (lookup_for_color none "-panel-corner-background-color"
        (lookup_for_color none "-panel-corner-background-color"
          settingsBadColor).2).1 = ⟨0, 0, 0, 255⟩ ∧
      (lookup_for_color none "-panel-corner-background-color"
        (lookup_for_color none "-panel-corner-background-color"
          settingsBadColor).2).2
        = (lookup_for_color none "-panel-corner-background-color"
          settingsBadColor).2) :=
  ⟨by decide, color_self_repair none none settingsBadColor (by decide)⟩

/-! ## Cache coherence lemmas -/

theorem callGetter_cached (node : Option ThemeNode) (sf : Int) (f : Field)
    (st : CornerState) (v : Value) (h : cacheF f st.cache = some v) :
    callGetter node sf f st = (v, st, false) := by
  obtain ⟨cache, settings⟩ := st
  cases f <;> simp only [cacheF, Option.map_eq_some'] at h <;>
    obtain ⟨w, hw, rfl⟩ := h <;>
    simp [callGetter, getRadius, getBorderWidth, getBackgroundColor,
      getOpacity, hw]

theorem callGetter_fills (node : Option ThemeNode) (sf : Int) (f : Field)
    (st : CornerState) :
    cacheF f ((callGetter node sf f st).2.1).cache
      = some (callGetter node sf f st).1 := by
  cases f
  case radius =>
    cases hc : st.cache.cachedRadius <;>
      simp [callGetter, getRadius, cacheF, hc]
  case borderWidth =>
    cases hc : st.cache.cachedBorderWidth <;>
      simp [callGetter, getBorderWidth, cacheF, hc]
  case backgroundColor =>
    cases hc : st.cache.cachedBackgroundColor <;>
      simp [callGetter, getBackgroundColor, cacheF, hc]
  case opacity =>
    cases hc : st.cache.cachedOpacity <;>
      simp [callGetter, getOpacity, cacheF, hc]

theorem callGetter_fresh (node : Option ThemeNode) (sf : Int) (f : Field)
    (st : CornerState) (h : cacheF f st.cache = none) :
    (callGetter node sf f st).2.2 = true := by
  cases f <;> simp only [cacheF, Option.map_eq_none'] at h <;>
    simp [callGetter, getRadius, getBorderWidth, getBackgroundColor,
      getOpacity, h]

theorem callGetter_preserves (node : Option ThemeNode) (sf : Int)
    (f g : Field) (hfg : f ≠ g) (st : CornerState) :
    cacheF f ((callGetter node sf g st).2.1).cache = cacheF f st.cache := by
  cases g
  case radius =>
    cases hc : st.cache.cachedRadius <;> cases f <;>
      simp_all [callGetter, getRadius, cacheF, hc]
  case borderWidth =>
    cases hc : st.cache.cachedBorderWidth <;> cases f <;>
      simp_all [callGetter, getBorderWidth, cacheF, hc]
  case backgroundColor =>
    cases hc : st.cache.cachedBackgroundColor <;> cases f <;>
      simp_all [callGetter, getBackgroundColor, cacheF, hc]
  case opacity =>
    cases hc : st.cache.cachedOpacity <;> cases f <;>
      simp_all [callGetter, getOpacity, cacheF, hc]

/-- Once a field is cached, every later call to its getter returns the
cached value without invoking the lookup, and the field stays cached. -/
theorem runCalls_cached_stable (node : Option ThemeNode) (sf : Int)
    (f : Field) (v : Value) :
    ∀ (calls : List Field) (st : CornerState),
      cacheF f st.cache = some v →
      (∀ x ∈ resultsFor f calls (runCalls node sf calls st).1, x = (v, false))
        ∧ cacheF f (runCalls node sf calls st).2.cache = some v := by
  intro calls
  induction calls with
  | nil => intro st h; exact ⟨by simp [runCalls, resultsFor], by
      simpa [runCalls] using h⟩
  | cons g gs ih =>
      intro st h
      by_cases hg : g = f
      · subst hg
        have hc := callGetter_cached node sf g st v h
        have hrec := ih st h
        have hrw : resultsFor g (g :: gs)
            (runCalls node sf (g :: gs) st).1
            = (v, false) :: resultsFor g gs (runCalls node sf gs st).1 := by
          simp [runCalls, hc, resultsFor]
        have hrw2 : (runCalls node sf (g :: gs) st).2
            = (runCalls node sf gs st).2 := by
          simp [runCalls, hc]
        constructor
        · intro x hx
          rw [hrw] at hx
          rcases List.mem_cons.mp hx with rfl | hx
          · rfl
          · exact hrec.1 x hx
        · rw [hrw2]; exact hrec.2
      · have hpres := callGetter_preserves node sf f g
          (fun he => hg he.symm) st
        have h' : cacheF f ((callGetter node sf g st).2.1).cache = some v :=
          hpres.trans h
        have hrec := ih _ h'
        have hrw : resultsFor f (g :: gs)
            (runCalls node sf (g :: gs) st).1
            = resultsFor f gs
                (runCalls node sf gs (callGetter node sf g st).2.1).1 := by
          simp [runCalls, resultsFor, if_neg hg]
        have hrw2 : (runCalls node sf (g :: gs) st).2
            = (runCalls node sf gs (callGetter node sf g st).2.1).2 := by
          simp [runCalls]
        constructor
        · intro x hx
          rw [hrw] at hx
          exact hrec.1 x hx
        · rw [hrw2]; exact hrec.2

/-- While a field is uncached and its getter is not called, it stays
uncached; its first call therefore performs the lookup. -/
theorem runCalls_first_fresh (node : Option ThemeNode) (sf : Int)
    (f : Field) :
    ∀ (calls : List Field) (st : CornerState),
      cacheF f st.cache = none →
      ∀ x rest,
        resultsFor f calls (runCalls node sf calls st).1 = x :: rest →
        x.2 = true := by
  intro calls
  induction calls with
  | nil => intro st _ x rest hx; simp [runCalls, resultsFor] at hx
  | cons g gs ih =>
      intro st h x rest hx
      by_cases hg : g = f
      · subst hg
        have hfl := callGetter_fresh node sf g st h
        have hrw : resultsFor g (g :: gs)
            (runCalls node sf (g :: gs) st).1
            = ((callGetter node sf g st).1, (callGetter node sf g st).2.2)
              :: resultsFor g gs
                (runCalls node sf gs (callGetter node sf g st).2.1).1 := by
          simp [runCalls, resultsFor]
        rw [hrw] at hx
        injection hx with h1 _
        rw [← h1]
        exact hfl
      · have hpres := callGetter_preserves node sf f g
          (fun he => hg he.symm) st
        have h' : cacheF f ((callGetter node sf g st).2.1).cache = none :=
          hpres.trans h
        have hrw : resultsFor f (g :: gs)
            (runCalls node sf (g :: gs) st).1
            = resultsFor f gs
                (runCalls node sf gs (callGetter node sf g st).2.1).1 := by
          simp [runCalls, resultsFor, if_neg hg]
        rw [hrw] at hx
        exact ih _ h' x rest hx

/-- Any run of getter calls: all results addressed to one field after the
first repeat the first one, with no further lookups. -/
theorem runCalls_coherent (node : Option ThemeNode) (sf : Int) (f : Field) :
    ∀ (calls : List Field) (st : CornerState) (x : Value × Bool)
      (rest : List (Value × Bool)),
      resultsFor f calls (runCalls node sf calls st).1 = x :: rest →
      ∀ y ∈ rest, y = (x.1, false) := by
  intro calls
  induction calls with
  | nil => intro st x rest hx; simp [runCalls, resultsFor] at hx
  | cons g gs ih =>
      intro st x rest hx
      by_cases hg : g = f
      · subst hg
        have hfill := callGetter_fills node sf g st
        have hrw : resultsFor g (g :: gs)
            (runCalls node sf (g :: gs) st).1
            = ((callGetter node sf g st).1, (callGetter node sf g st).2.2)
              :: resultsFor g gs
                (runCalls node sf gs (callGetter node sf g st).2.1).1 := by
          simp [runCalls, resultsFor]
        rw [hrw] at hx
        injection hx with h1 h2
        have hstable := runCalls_cached_stable node sf g
          ((callGetter node sf g st).1) gs (callGetter node sf g st).2.1
          hfill
        intro y hy
        have hyv := hstable.1 y (h2 ▸ hy)
        rw [hyv, ← h1]
      · have hrw : resultsFor f (g :: gs)
            (runCalls node sf (g :: gs) st).1
            = resultsFor f gs
                (runCalls node sf gs (callGetter node sf g st).2.1).1 := by
          simp [runCalls, resultsFor, if_neg hg]
        rw [hrw] at hx
        exact ih _ x rest hx

/-- Claim C4: For every cached field and every sequence of getter calls with
no intervening `invalidateCache()`, the second and later calls to that
field's getter return exactly the first call's value, and the underlying
lookup runs at most once over the whole sequence (the instrumentation bit
is true for at most one of the field's calls). -/
theorem cache_coherence (node : Option ThemeNode) (sf : Int) (f : Field)
    (calls : List Field) (st : CornerState) (x : Value × Bool)
    (rest : List (Value × Bool))
    (h : resultsFor f calls (runCalls node sf calls st).1 = x :: rest) :
    (∀ y ∈ rest, y.1 = x.1) ∧
    (((x :: rest).map Prod.snd).count true ≤ 1) := by
  have hall := runCalls_coherent node sf f calls st x rest h
  constructor
  · intro y hy
    rw [hall y hy]
  · have hzero : (rest.map Prod.snd).count true = 0 := by
      rw [List.count_eq_zero]
      intro hmem
      obtain ⟨y, hy, hsnd⟩ := List.mem_map.mp hmem
      rw [hall y hy] at hsnd
      exact Bool.false_ne_true hsnd
    cases hb : x.2 <;> simp [List.count_cons, hzero, hb]

/-- Witness for `cache_coherence`: radius read twice (with an opacity read
in between) from an empty cache returns 10 both times and performs the
lookup once. -/
theorem cache_coherence_witness :
    resultsFor Field.radius [Field.radius, Field.opacity, Field.radius]
      (runCalls none 2 [Field.radius, Field.opacity, Field.radius]
        ⟨freshCache, demoSettings⟩).1
      = (Value.int 10, true) :: [(Value.int 10, false)] ∧
    ((∀ y ∈ [(Value.int 10, false)], y.1 = (Value.int 10, true).1) ∧
      ((((Value.int 10, true) :: [(Value.int 10, false)]).map
        Prod.snd).count true ≤ 1)) :=
  ⟨by decide,
    cache_coherence none 2 Field.radius
      [Field.radius, Field.opacity, Field.radius]
      ⟨freshCache, demoSettings⟩ (Value.int 10, true)
      [(Value.int 10, false)] (by decide)⟩

/-- Claim C5: `invalidateCache()` unconditionally clears all four cached
fields; after it, the first subsequent call to any field's getter performs
a fresh lookup (its instrumentation bit is true) rather than reusing a
pre-invalidation value, whatever other getter calls happened in
between. -/
theorem invalidate_clears_all (node : Option ThemeNode) (sf : Int)
    (st : CornerState) (calls : List Field) (f : Field) (x : Value × Bool)
    (rest : List (Value × Bool))
    (h : resultsFor f calls
      (runCalls node sf calls ⟨invalidateCache st.cache, st.settings⟩).1
      = x :: rest) :
    invalidateCache st.cache = freshCache ∧ x.2 = true := by
  refine ⟨rfl, ?_⟩
  have hnone : cacheF f
      (CornerState.mk (invalidateCache st.cache) st.settings).cache
      = none := by
    cases f <;> rfl
  exact runCalls_first_fresh node sf f calls _ hnone x rest h

/-- Witness for `invalidate_clears_all`: starting from a fully cached
corner (radius 999 etc.), after invalidation the first radius read — with
a border-width read in between — performs a fresh lookup and returns the
settings-derived 10, not 999. -/
theorem invalidate_clears_all_witness :
    resultsFor Field.radius [Field.borderWidth, Field.radius]
      (runCalls none 2 [Field.borderWidth, Field.radius]
        ⟨invalidateCache ⟨some 999, some 999, some ⟨1, 2, 3, 4⟩, some 0⟩,
          demoSettings⟩).1
      = (Value.int 10, true) :: [] ∧
    (invalidateCache ⟨some 999, some 999, some ⟨1, 2, 3, 4⟩, some 0⟩
        = freshCache ∧
      (Value.int 10, true).2 = true) :=
  ⟨by decide,
    invalidate_clears_all none 2
      ⟨⟨some 999, some 999, some ⟨1, 2, 3, 4⟩, some 0⟩, demoSettings⟩
      [Field.borderWidth, Field.radius] Field.radius
      (Value.int 10, true) [] (by decide)⟩

/-! ## Debounce coalescing -/

/-- Closed form of `N ≥ 1` consecutive invocations of a fresh debounced
wrapper within one window: exactly one source (the most recently
scheduled one) is live, and the callback has not run. -/
theorem invoke_iterate : ∀ N : Nat, 1 ≤ N →
    Debounced.invoke^[N] Debounced.fresh
      = ⟨some (N - 1), [N - 1], N, []⟩ := by
  intro N h
  induction N with
  | zero => exact absurd h (by decide)
  | succ n ih =>
      rcases Nat.eq_zero_or_pos n with rfl | hn
      · decide
      · rw [Function.iterate_succ_apply', ih hn]
        simp [Debounced.invoke, List.erase_cons_head]

/-- Claim C6: Invoking a fresh debounced wrapper `N ≥ 1` times within one
window leaves exactly one scheduled timer and zero callback runs; when
that timer then elapses, the callback runs exactly once — one cache
invalidation followed by one style-changed recomputation, not `N` — and a
further invocation before the timer fires cancels the previously
scheduled timer. -/
theorem debounce_coalescing (N : Nat) (h : 1 ≤ N) :
    (Debounced.invoke^[N] Debounced.fresh).events = [] ∧
    (Debounced.invoke^[N] Debounced.fresh).pending = [N - 1] ∧
    ((Debounced.invoke^[N] Debounced.fresh).fire (N - 1)).events
      = [DEv.invalidation, DEv.recomputation] ∧
    ((Debounced.invoke^[N] Debounced.fresh).fire (N - 1)).pending = [] ∧
    N - 1 ∉ (Debounced.invoke^[N + 1] Debounced.fresh).pending := by
  have hN := invoke_iterate N h
  have hN1 := invoke_iterate (N + 1) (by omega)
  rw [hN, hN1]
  refine ⟨rfl, rfl, ?_, ?_, ?_⟩
  · simp [Debounced.fire, List.erase_cons_head]
  · simp [Debounced.fire, List.erase_cons_head]
  · simp
    omega

/-- Witness for `debounce_coalescing` at `N = 3`. -/
theorem debounce_coalescing_witness :
    1 ≤ 3 ∧
    ((Debounced.invoke^[3] Debounced.fresh).events = [] ∧
      (Debounced.invoke^[3] Debounced.fresh).pending = [3 - 1] ∧
      ((Debounced.invoke^[3] Debounced.fresh).fire (3 - 1)).events
        = [DEv.invalidation, DEv.recomputation] ∧
      ((Debounced.invoke^[3] Debounced.fresh).fire (3 - 1)).pending = [] ∧
      3 - 1 ∉ (Debounced.invoke^[3 + 1] Debounced.fresh).pending) :=
  ⟨by decide, debounce_coalescing 3 (by decide)⟩

/-! ## The destruction race (controller model) -/

/-- Claim C2, bug exhibit: After `update()` and one settings-change event,
*two* debounced settings callbacks are outstanding (one per corner, since
`update_corner` overwrites `#debouncedStyleUpdate` without cancelling the
first corner's wrapper).  `remove()` cancels only the stored (right
corner's) timer: the left corner's source `(0, 0)` survives, its target
corner 0 is already destroyed, and when the timer elapses after `remove()`
returned, the debounced callback still fires, invalidating and restyling
the destroyed corner. -/
theorem debounce_destruction_race :
    (run [Act.update, Act.settings] sys0).sources.length = 2 ∧
    (run [Act.update, Act.settings, Act.remove] sys0).sources = [(0, 0)] ∧
    (0 : Nat) ∈ (run [Act.update, Act.settings, Act.remove] sys0).destroyed ∧
    (step (Act.fire 0) (run [Act.update, Act.settings, Act.remove] sys0)).log
      = (run [Act.update, Act.settings, Act.remove] sys0).log
        ++ [Ev.invalidate 0, Ev.invalidate 0, Ev.refill 0, Ev.alloc 0,
            Ev.passEnd 0] := by
  decide

/-! ## Lifecycle idempotence -/

theorem remove_corner_field (c : Nat) (t : Sys) :
    (remove_corner c t).field = t.field := rfl

theorem remove_corner_conns (c : Nat) (t : Sys) :
    (remove_corner c t).settingsConns = t.settingsConns := rfl

theorem remove_corner_right (c : Nat) (t : Sys) :
    (remove_corner c t).panelRight = t.panelRight := rfl

theorem remove_corner_left (c : Nat) (t : Sys) :
    (remove_corner c t).panelLeft = t.panelLeft := rfl

theorem removeLeft_field (t : Sys) : (removeLeft t).field = t.field := by
  rcases hl : t.panelLeft <;> simp [removeLeft, hl, remove_corner_field]

theorem removeRight_field (t : Sys) : (removeRight t).field = t.field := by
  rcases hr : t.panelRight <;> simp [removeRight, hr, remove_corner_field]

theorem removeLeft_conns (t : Sys) :
    (removeLeft t).settingsConns = t.settingsConns := by
  rcases hl : t.panelLeft <;> simp [removeLeft, hl, remove_corner_conns]

theorem removeRight_conns (t : Sys) :
    (removeRight t).settingsConns = t.settingsConns := by
  rcases hr : t.panelRight <;> simp [removeRight, hr, remove_corner_conns]

theorem removeLeft_panelLeft (t : Sys) : (removeLeft t).panelLeft = none := by
  rcases hl : t.panelLeft <;> simp [removeLeft, hl, remove_corner_left]

theorem removeRight_panelLeft (t : Sys) :
    (removeRight t).panelLeft = t.panelLeft := by
  rcases hr : t.panelRight <;> simp [removeRight, hr, remove_corner_left]

theorem removeRight_panelRight (t : Sys) :
    (removeRight t).panelRight = none := by
  rcases hr : t.panelRight <;> simp [removeRight, hr, remove_corner_right]

/-- After `remove()`, the controller is in state ABSENT: no stored
debounced wrapper, no settings connections, no corners in the panel
fields. -/
theorem removeCtl_clears (s : Sys) :
    (removeCtl s).field = none ∧ (removeCtl s).settingsConns = [] ∧
    (removeCtl s).panelLeft = none ∧ (removeCtl s).panelRight = none := by
  refine ⟨?_, ?_, ?_, ?_⟩
  · rw [removeCtl, removeRight_field, removeLeft_field]
    show (cancelDebounced s).field = none
    rcases hf : s.field with _ | w
    · simp [cancelDebounced, hf]
    · simp [cancelDebounced, hf]
  · rw [removeCtl, removeRight_conns, removeLeft_conns]
    rfl
  · rw [removeCtl, removeRight_panelLeft, removeLeft_panelLeft]
  · rw [removeCtl, removeRight_panelRight]

/-- Running `remove()` on a controller in state ABSENT is the identity. -/
theorem removeCtl_absent (s : Sys) (h1 : s.field = none)
    (h2 : s.settingsConns = []) (h3 : s.panelLeft = none)
    (h4 : s.panelRight = none) : removeCtl s = s := by
  obtain ⟨nc, nw, ns, pc, sc, ws, srcs, conns, fld, pl, pr, d, lg⟩ := s
  simp only at h1 h2 h3 h4
  subst h1 h2 h3 h4
  rfl

/-- Claim C10: `remove()` on a controller on which `update()` was never
called is a no-op (the state, including the observable-operation log, is
unchanged), and `remove()` is idempotent: a second `remove()` right after
a first one changes nothing — no live-timer cancellation, no corner
destruction, no child removal — and, all operations being total, raises no
error. -/
theorem remove_idempotent_safe :
    removeCtl sys0 = sys0 ∧
    ∀ s : Sys, removeCtl (removeCtl s) = removeCtl s := by
  refine ⟨by decide, fun s => ?_⟩
  obtain ⟨h1, h2, h3, h4⟩ := removeCtl_clears s
  exact removeCtl_absent _ h1 h2 h3 h4

/-! ## Allocation ordering: checker lemmas -/

theorem allocsOkFrom_append (l₁ : List Ev) : ∀ (seen l₂ : List Ev),
    allocsOkFrom seen (l₁ ++ l₂)
      = (allocsOkFrom seen l₁ && allocsOkFrom (seen ++ l₁) l₂) := by
  induction l₁ with
  | nil => intro seen l₂; simp [allocsOkFrom]
  | cons e l ih =>
      intro seen l₂
      simp [allocsOkFrom, ih (seen ++ [e]) l₂, Bool.and_assoc,
        List.append_assoc]

theorem allocsOkFrom_no_alloc : ∀ (l : List Ev),
    (∀ c, Ev.alloc c ∉ l) → ∀ seen, allocsOkFrom seen l = true := by
  intro l
  induction l with
  | nil => intro _ _; rfl
  | cons e rest ih =>
      intro h seen
      have hrest : ∀ c, Ev.alloc c ∉ rest := fun c hc =>
        h c (List.mem_cons_of_mem _ hc)
      have hguard : allocGuarded seen e = true := by
        cases e <;>
          first
          | rfl
          | exact absurd (List.mem_cons_self _ _) (h _)
      simp [allocsOkFrom, hguard, ih hrest (seen ++ [e])]

theorem allocsOkFrom_passEvents (seen : List Ev) (c : Nat) :
    allocsOkFrom seen (passEvents c) = true := by
  simp [passEvents, allocsOkFrom, allocGuarded, List.mem_append]

theorem allocsOkFrom_allocList (cs : List Nat) : ∀ (seen : List Ev),
    (∀ c ∈ cs, Ev.refill c ∈ seen) →
    allocsOkFrom seen (cs.map Ev.alloc) = true := by
  induction cs with
  | nil => intro _ _; rfl
  | cons c rest ih =>
      intro seen h
      have hg : allocGuarded seen (Ev.alloc c) = true := by
        simp [allocGuarded, h c (List.mem_cons_self _ _)]
      have hrest : ∀ d ∈ rest, Ev.refill d ∈ seen ++ [Ev.alloc c] :=
        fun d hd => List.mem_append_left _ (h d (List.mem_cons_of_mem _ hd))
      simp [allocsOkFrom, hg, ih _ hrest]

theorem allocsOkFrom_firstAlloc (seen : List Ev) (c : Nat)
    (h : Ev.alloc c ∉ seen) : allocsOkFrom seen [Ev.alloc c] = true := by
  simp [allocsOkFrom, allocGuarded, h]

/-! ## Allocation ordering: invariant preservation -/

theorem setWrapperTimeout_targets (l : List (Nat × Wrapper)) (w : Nat)
    (t : Option Nat) (q : Nat × Wrapper)
    (hq : q ∈ setWrapperTimeout l w t) :
    ∃ p ∈ l, (Prod.snd q).target = (Prod.snd p).target := by
  obtain ⟨p, hp, rfl⟩ := List.mem_map.mp hq
  by_cases hw : p.1 = w
  · exact ⟨p, hp, by simp [hw]⟩
  · exact ⟨p, hp, by simp [hw]⟩

/-- A step that appends only allocation-free events, shrinks the signal
subscriptions, keeps the corner counter, and keeps wrapper targets within
the old wrappers, preserves the invariant. -/
theorem Inv_mono (s t : Sys) (l : List Ev)
    (hlog : t.log = s.log ++ l) (hl : ∀ c, Ev.alloc c ∉ l)
    (hsize : ∀ c ∈ t.sizeConn, c ∈ s.sizeConn)
    (hpos : ∀ c ∈ t.posConn, c ∈ s.posConn)
    (hC : t.nextC = s.nextC)
    (hw : ∀ q ∈ t.wrappers, ∃ p ∈ s.wrappers,
      (Prod.snd q).target = (Prod.snd p).target)
    (h : Inv s) : Inv t := by
  obtain ⟨h1, h2, h3, h4, h5, h6, h7⟩ := h
  refine ⟨?_, ?_, ?_, ?_, ?_, ?_, ?_⟩
  · rw [hlog, allocsOkFrom_append, h1, List.nil_append,
      allocsOkFrom_no_alloc l hl s.log]
    rfl
  · intro c hc
    rw [hlog]
    exact List.mem_append_left _ (h2 c (hsize c hc))
  · intro c hc
    rw [hlog]
    exact List.mem_append_left _ (h3 c (hpos c hc))
  · intro c hcge
    rw [hlog]
    intro hmem
    rcases List.mem_append.mp hmem with hm | hm
    · exact h4 c (hC ▸ hcge) hm
    · exact hl c hm
  · intro q hq
    obtain ⟨p, hp, he⟩ := hw q hq
    rw [hC, he]
    exact h5 p hp
  · intro c hc
    rw [hC]
    exact h6 c (hsize c hc)
  · intro c hc
    rw [hC]
    exact h7 c (hpos c hc)

theorem lookupWrapper_mem (s : Sys) (w : Nat) (wr : Wrapper)
    (h : lookupWrapper s w = some wr) : ∃ n, (n, wr) ∈ s.wrappers := by
  unfold lookupWrapper at h
  obtain ⟨p, hp, hpe⟩ := Option.map_eq_some'.mp h
  refine ⟨p.1, ?_⟩
  have hmem := List.mem_of_find?_eq_some hp
  rwa [show (p.1, wr) = p by rw [← hpe]]

theorem Inv_remove_corner (c : Nat) (s : Sys) (h : Inv s) :
    Inv (remove_corner c s) := by
  refine Inv_mono s _ [Ev.removeChild c, Ev.destroyCorner c] rfl ?_
    (fun d hd => List.mem_of_mem_filter hd)
    (fun d hd => List.mem_of_mem_filter hd) rfl
    (fun q hq => ⟨q, hq, rfl⟩) h
  intro c' hc'
  simp at hc'

theorem Inv_cancelDebounced (s : Sys) (h : Inv s) :
    Inv (cancelDebounced s) := by
  rcases hf : s.field with _ | w
  · simpa [cancelDebounced, hf] using h
  · rcases ht : (lookupWrapper s w).bind Wrapper.timeoutId with _ | tid
    · simp only [cancelDebounced, hf, ht]
      exact h
    · simp only [cancelDebounced, hf, ht]
      refine Inv_mono s _ [Ev.cancelTimer tid] rfl ?_
        (fun c hc => hc) (fun c hc => hc) rfl ?_ h
      · intro c' hc'
        simp at hc'
      · intro q hq
        exact setWrapperTimeout_targets _ _ _ q hq

theorem Inv_disconnectAll (s : Sys) (h : Inv s) : Inv (disconnectAll s) := h

theorem Inv_removeLeft (s : Sys) (h : Inv s) : Inv (removeLeft s) := by
  rcases hl : s.panelLeft with _ | c
  · simpa [removeLeft, hl] using h
  · simp only [removeLeft, hl]
    exact Inv_remove_corner c _ h

theorem Inv_removeRight (s : Sys) (h : Inv s) : Inv (removeRight s) := by
  rcases hr : s.panelRight with _ | c
  · simpa [removeRight, hr] using h
  · simp only [removeRight, hr]
    exact Inv_remove_corner c _ h

theorem Inv_removeCtl (s : Sys) (h : Inv s) : Inv (removeCtl s) :=
  Inv_removeRight _ (Inv_removeLeft _ (Inv_disconnectAll _
    (Inv_cancelDebounced s h)))

theorem Inv_invokeWrapper (w : Nat) (s : Sys) (h : Inv s) :
    Inv (invokeWrapper w s) := by
  rcases hw : lookupWrapper s w with _ | wr
  · simpa [invokeWrapper, hw] using h
  · rcases ht : wr.timeoutId with _ | tid
    · simp only [invokeWrapper, hw, ht]
      refine Inv_mono s _ [] (by simp) (by simp)
        (fun c hc => hc) (fun c hc => hc) rfl ?_ h
      intro q hq
      exact setWrapperTimeout_targets _ _ _ q hq
    · simp only [invokeWrapper, hw, ht]
      refine Inv_mono s _ [Ev.cancelTimer tid] rfl ?_
        (fun c hc => hc) (fun c hc => hc) rfl ?_ h
      · intro c' hc'
        simp at hc'
      · intro q hq
        exact setWrapperTimeout_targets _ _ _ q hq

theorem Inv_foldInvoke (ws : List Nat) : ∀ (s : Sys), Inv s →
    Inv (ws.foldl (fun t w => invokeWrapper w t) s) := by
  induction ws with
  | nil => intro s h; exact h
  | cons w rest ih => intro s h; exact ih _ (Inv_invokeWrapper w s h)

theorem Inv_settingsChanged (s : Sys) (h : Inv s) :
    Inv (settingsChanged s) :=
  Inv_foldInvoke s.settingsConns s h

/-- The debounced settings callback (`invalidateCache` then a full
style-changed pass) preserves the invariant for any existing corner. -/
theorem Inv_callbackPass (c : Nat) (s : Sys) (hc : c < s.nextC)
    (h : Inv s) :
    Inv (stylePass c { s with log := s.log ++ [Ev.invalidate c] }) := by
  obtain ⟨h1, h2, h3, h4, h5, h6, h7⟩ := h
  refine ⟨?_, ?_, ?_, ?_, h5, h6, h7⟩
  · have e1 : allocsOkFrom [] (s.log ++ [Ev.invalidate c]) = true := by
      rw [allocsOkFrom_append, h1, List.nil_append,
        allocsOkFrom_no_alloc [Ev.invalidate c]
          (by intro d hd; simp at hd) s.log]
      rfl
    show allocsOkFrom []
      ((s.log ++ [Ev.invalidate c]) ++ passEvents c) = true
    rw [allocsOkFrom_append, e1, List.nil_append,
      allocsOkFrom_passEvents]
    rfl
  · intro d hd
    exact List.mem_append_left _ (List.mem_append_left _ (h2 d hd))
  · intro d hd
    exact List.mem_append_left _ (List.mem_append_left _ (h3 d hd))
  · intro c' hge hmem
    have hge' : s.nextC ≤ c' := hge
    rcases List.mem_append.mp hmem with hm | hm
    · rcases List.mem_append.mp hm with hm2 | hm2
      · exact h4 c' hge' hm2
      · simp at hm2
    · simp [passEvents] at hm
      omega

theorem Inv_fireSource (sid : Nat) (s : Sys) (h : Inv s) :
    Inv (fireSource sid s) := by
  unfold fireSource
  rcases hf : s.sources.find? (fun p => p.1 = sid) with _ | p
  · simp only [hf]
    exact h
  · simp only [hf]
    have hs1 : Inv { s with
        sources := s.sources.filter (fun q => q.1 ≠ sid)
        wrappers := setWrapperTimeout s.wrappers p.2 none } := by
      refine Inv_mono s _ [] (by simp) (by simp)
        (fun c hc => hc) (fun c hc => hc) rfl ?_ h
      intro q hq
      exact setWrapperTimeout_targets _ _ _ q hq
    rcases hw : lookupWrapper { s with
        sources := s.sources.filter (fun q => q.1 ≠ sid)
        wrappers := setWrapperTimeout s.wrappers p.2 none } p.2 with _ | wr
    · simp only [hw]
      exact hs1
    · simp only [hw]
      obtain ⟨n, hn⟩ := lookupWrapper_mem _ _ _ hw
      have htgt := hs1.2.2.2.2.1 (n, wr) hn
      exact Inv_callbackPass wr.target _ htgt hs1

theorem Inv_panelSizeChanged (s : Sys) (h : Inv s) :
    Inv (panelSizeChanged s) := by
  obtain ⟨h1, h2, h3, h4, h5, h6, h7⟩ := h
  refine ⟨?_, ?_, ?_, ?_, h5, h6, h7⟩
  · show allocsOkFrom [] (s.log ++ s.sizeConn.map Ev.alloc) = true
    rw [allocsOkFrom_append, h1, List.nil_append,
      allocsOkFrom_allocList s.sizeConn s.log h2]
    rfl
  · intro c hc
    exact List.mem_append_left _ (h2 c hc)
  · intro c hc
    exact List.mem_append_left _ (h3 c hc)
  · intro c hge hmem
    have hge' : s.nextC ≤ c := hge
    rcases List.mem_append.mp hmem with hm | hm
    · exact h4 c hge' hm
    · obtain ⟨d, hd, he⟩ := List.mem_map.mp hm
      injection he with hdc
      have := h6 d hd
      omega

theorem Inv_panelPosChanged (s : Sys) (h : Inv s) :
    Inv (panelPosChanged s) := by
  obtain ⟨h1, h2, h3, h4, h5, h6, h7⟩ := h
  refine ⟨?_, ?_, ?_, ?_, h5, h6, h7⟩
  · show allocsOkFrom [] (s.log ++ s.posConn.map Ev.alloc) = true
    rw [allocsOkFrom_append, h1, List.nil_append,
      allocsOkFrom_allocList s.posConn s.log h3]
    rfl
  · intro c hc
    exact List.mem_append_left _ (h2 c hc)
  · intro c hc
    exact List.mem_append_left _ (h3 c hc)
  · intro c hge hmem
    have hge' : s.nextC ≤ c := hge
    rcases List.mem_append.mp hmem with hm | hm
    · exact h4 c hge' hm
    · obtain ⟨d, hd, he⟩ := List.mem_map.mp hm
      injection he with hdc
      have := h7 d hd
      omega

theorem updateCtl_log (s : Sys) :
    (updateCtl s).log =
      ((((removeCtl s).log ++ [Ev.alloc (removeCtl s).nextC])
        ++ [Ev.alloc ((removeCtl s).nextC + 1)])
        ++ passEvents (removeCtl s).nextC)
        ++ passEvents ((removeCtl s).nextC + 1) := rfl

theorem updateCtl_sizeConn (s : Sys) :
    (updateCtl s).sizeConn = ((removeCtl s).sizeConn
      ++ [(removeCtl s).nextC]) ++ [(removeCtl s).nextC + 1] := rfl

theorem updateCtl_posConn (s : Sys) :
    (updateCtl s).posConn = ((removeCtl s).posConn
      ++ [(removeCtl s).nextC]) ++ [(removeCtl s).nextC + 1] := rfl

theorem updateCtl_nextC (s : Sys) :
    (updateCtl s).nextC = (removeCtl s).nextC + 2 := rfl

theorem updateCtl_wrappers (s : Sys) :
    (updateCtl s).wrappers = ((removeCtl s).wrappers
      ++ [((removeCtl s).nextW, ⟨none, (removeCtl s).nextC⟩)])
      ++ [((removeCtl s).nextW + 1, ⟨none, (removeCtl s).nextC + 1⟩)] := rfl

theorem Inv_updateCtl (s : Sys) (h : Inv s) : Inv (updateCtl s) := by
  obtain ⟨h1, h2, h3, h4, h5, h6, h7⟩ := Inv_removeCtl s h
  refine ⟨?_, ?_, ?_, ?_, ?_, ?_, ?_⟩
  · have e1 : allocsOkFrom []
        ((removeCtl s).log ++ [Ev.alloc (removeCtl s).nextC]) = true := by
      rw [allocsOkFrom_append, h1, List.nil_append,
        allocsOkFrom_firstAlloc _ _ (h4 _ (le_refl _))]
      rfl
    have hnot : Ev.alloc ((removeCtl s).nextC + 1)
        ∉ (removeCtl s).log ++ [Ev.alloc (removeCtl s).nextC] := by
      intro hm
      rcases List.mem_append.mp hm with hm | hm
      · exact h4 _ (by omega) hm
      · simp at hm
    have e2 : allocsOkFrom []
        (((removeCtl s).log ++ [Ev.alloc (removeCtl s).nextC])
          ++ [Ev.alloc ((removeCtl s).nextC + 1)]) = true := by
      rw [allocsOkFrom_append, e1, List.nil_append,
        allocsOkFrom_firstAlloc _ _ hnot]
      rfl
    have e3 : allocsOkFrom []
        ((((removeCtl s).log ++ [Ev.alloc (removeCtl s).nextC])
          ++ [Ev.alloc ((removeCtl s).nextC + 1)])
          ++ passEvents (removeCtl s).nextC) = true := by
      rw [allocsOkFrom_append, e2, List.nil_append,
        allocsOkFrom_passEvents]
      rfl
    rw [updateCtl_log, allocsOkFrom_append, e3, List.nil_append,
      allocsOkFrom_passEvents]
    rfl
  · intro c hc
    rw [updateCtl_sizeConn] at hc
    rw [updateCtl_log]
    rcases List.mem_append.mp hc with hc1 | hlast
    · rcases List.mem_append.mp hc1 with hold | hc0
      · exact List.mem_append_left _ (List.mem_append_left _
          (List.mem_append_left _ (List.mem_append_left _ (h2 c hold))))
      · simp at hc0
        subst hc0
        exact List.mem_append_left _ (List.mem_append_right _
          (by simp [passEvents]))
    · simp at hlast
      subst hlast
      exact List.mem_append_right _ (by simp [passEvents])
  · intro c hc
    rw [updateCtl_posConn] at hc
    rw [updateCtl_log]
    rcases List.mem_append.mp hc with hc1 | hlast
    · rcases List.mem_append.mp hc1 with hold | hc0
      · exact List.mem_append_left _ (List.mem_append_left _
          (List.mem_append_left _ (List.mem_append_left _ (h3 c hold))))
      · simp at hc0
        subst hc0
        exact List.mem_append_left _ (List.mem_append_right _
          (by simp [passEvents]))
    · simp at hlast
      subst hlast
      exact List.mem_append_right _ (by simp [passEvents])
  · intro c hge
    rw [updateCtl_nextC] at hge
    rw [updateCtl_log]
    intro hmem
    rcases List.mem_append.mp hmem with hm | hm
    · rcases List.mem_append.mp hm with hm | hm
      · rcases List.mem_append.mp hm with hm | hm
        · rcases List.mem_append.mp hm with hm | hm
          · exact h4 _ (by omega) hm
          · simp at hm
            omega
        · simp at hm
          omega
      · simp [passEvents] at hm
        omega
    · simp [passEvents] at hm
      omega
  · intro q hq
    rw [updateCtl_wrappers] at hq
    rw [updateCtl_nextC]
    rcases List.mem_append.mp hq with hq1 | hq2
    · rcases List.mem_append.mp hq1 with hold | hw0
      · have := h5 q hold
        omega
      · simp at hw0
        subst hw0
        simp
    · simp at hq2
      subst hq2
      simp
  · intro c hc
    rw [updateCtl_sizeConn] at hc
    rw [updateCtl_nextC]
    rcases List.mem_append.mp hc with hc1 | hlast
    · rcases List.mem_append.mp hc1 with hold | hc0
      · have := h6 c hold
        omega
      · simp at hc0
        omega
    · simp at hlast
      omega
  · intro c hc
    rw [updateCtl_posConn] at hc
    rw [updateCtl_nextC]
    rcases List.mem_append.mp hc with hc1 | hlast
    · rcases List.mem_append.mp hc1 with hold | hc0
      · have := h7 c hold
        omega
      · simp at hc0
        omega
    · simp at hlast
      omega

theorem Inv_sys0 : Inv sys0 := by
  refine ⟨rfl, ?_, ?_, ?_, ?_, ?_, ?_⟩ <;> simp [sys0]

theorem Inv_step (a : Act) (s : Sys) (h : Inv s) : Inv (step a s) := by
  cases a with
  | update => exact Inv_updateCtl s h
  | remove => exact Inv_removeCtl s h
  | settings => exact Inv_settingsChanged s h
  | fire sid => exact Inv_fireSource sid s h
  | panelResize => exact Inv_panelSizeChanged s h
  | panelMove => exact Inv_panelPosChanged s h

theorem Inv_run (acts : List Act) : ∀ (s : Sys), Inv s →
    Inv (run acts s) := by
  induction acts with
  | nil => intro s h; exact h
  | cons a rest ih => intro s h; exact ih _ (Inv_step a s h)

/-- Claim C9, counterexample: In the very first reachable execution —
a single `update()` call — the first logged event is the allocation the
`PanelCorner` constructor runs inline, before any style-changed pass has
completed (or even started): scanning the log of `update()` for the
claimed ordering fails. -/
theorem constructor_allocates_before_style_pass :
    (run [Act.update] sys0).log.head? = some (Ev.alloc 0) ∧
    allocAfterPass [] ((run [Act.update] sys0).log) = false := by
  decide

/-- Claim C9, amended: In every reachable execution, every run of the
allocation computation other than the single one the corner's constructor
performs inline is preceded by the style-changed getter refill for that
corner — the recomputation that fills the cached radius and border
width. -/
theorem alloc_preceded_by_refill (acts : List Act) :
    allocsOkFrom [] ((run acts sys0).log) = true :=
  (Inv_run acts sys0 Inv_sys0).1

end PanelCornersSpec
